import Mathlib

/-!
Shallow embedding of the longitudinal transfer-matrix core of LightWin
(`transfer_matrices_c.pyx` and the earlier pure-Cython variant of the same
module), over the real numbers.  Machine doubles are modelled as `ℝ`;
fallible array accesses are modelled with `Option`.
-/

namespace LightWin

noncomputable section

/-- Speed of light `c_cdef` (m/s), value as given in the source module. -/
def c_cdef : ℝ := 2.99792458e8

/-- Proton rest energy `E_rest_MeV_cdef` (MeV), value as given in the source module. -/
def E_rest_MeV_cdef : ℝ := 938.27203

/-- `inv_E_rest_MeV_cdef`, value as given in the source module. -/
def inv_E_rest_MeV_cdef : ℝ := 0.0010657889908537506

/-- Bunch angular frequency `OMEGA_0_BUNCH_cdef` (rad/s), value as given in the source module. -/
def OMEGA_0_BUNCH_cdef : ℝ := 1106468932.594325

/-- Adimensioned charge `q_adim_cdef`, value as given in the source module. -/
def q_adim_cdef : ℝ := 1

/-- Modelled from the spec: `GAMMA_INIT`, the single reference initial Lorentz factor of
the whole structure, imported by the source from the external `constants` module (not in
the sources at hand).  The commented reference block of the source gives
`GAMMA = 1 + E_MEV / E_rest_MeV` with `E_MEV = 16.6`; the claims about it depend only on
it being one global constant, not on its value. -/
def GAMMA_cdef : ℝ := 1 + 16.6 / 938.27203

/-- Subscript access `l[i]` of a CPython list (and of a Cython typed memoryview with the
default `boundscheck`/`wraparound` directives): an index `0 ≤ i < len` reads directly, a
negative index `-len ≤ i < 0` wraps around to `len + i`, and anything else raises
`IndexError` (modelled as `none`). -/
def pyGet {α : Type} (l : List α) (i : ℤ) : Option α :=
  if 0 ≤ i ∧ i < (l.length : ℤ) then l[i.toNat]?
  else if -(l.length : ℤ) ≤ i ∧ i < 0 then l[(i + (l.length : ℤ)).toNat]?
  else none

/-- The field sampler `interp(z, e_z, inv_dz_e, n_points_e)` of
`transfer_matrices_c.pyx`: outside `[0, (n_points_e - 1)/inv_dz_e]` (strict on both
sides) the result is `0`; otherwise the enclosing interval index is
`i = int(floor(z * inv_dz_e))`, and for `i < n_points_e - 1` the sample is linearly
interpolated as `slope * z + offset` with `slope = (e_z[i+1] - e_z[i]) * inv_dz_e` and
`offset = e_z[i] - i * (e_z[i+1] - e_z[i])`; in the remaining branch the source reads
`e_z[n_points_e]`.  Array reads are `pyGet`; a failed read is `none`. -/
def interp (z : ℝ) (e_z : List ℝ) (inv_dz_e : ℝ) (n_points_e : ℕ) : Option ℝ :=
  if z < 0 ∨ z > ((n_points_e : ℝ) - 1) / inv_dz_e then some 0
  else if ⌊z * inv_dz_e⌋ < (n_points_e : ℤ) - 1 then
    match pyGet e_z ⌊z * inv_dz_e⌋, pyGet e_z (⌊z * inv_dz_e⌋ + 1) with
    | some ezi, some ezi1 =>
        some ((ezi1 - ezi) * inv_dz_e * z + (ezi - (⌊z * inv_dz_e⌋ : ℝ) * (ezi1 - ezi)))
    | _, _ => none
  else pyGet e_z (n_points_e : ℤ)

/-- The normalized electric field `e_func(z, e_z, inv_dz_e, n_points_e, phi, phi_0) =
interp(z, ...) * cos(phi + phi_0)`.  The table triple `(e_z, inv_dz_e, n_points_e)` is
abstracted into the sampling function `e_spat : ℝ → ℝ` (the in-support, in-bounds value
of `interp`); `interp` itself is modelled separately in full detail above. -/
def e_func (e_spat : ℝ → ℝ) (z phi phi_0 : ℝ) : ℝ :=
  e_spat z * Real.cos (phi + phi_0)

/-- The derivative/increment function `du(z_rel, u, k_k, ..., phi_0_rel, delta_phi_norm)`
of `transfer_matrices_c.pyx`: `v[0] = k_k * e_func(z_rel, ..., u[1], phi_0_rel)` and
`v[1] = delta_phi_norm / beta` with `beta = sqrt(1 - u[0]^-2)`. -/
def du (z_rel : ℝ) (u : ℝ × ℝ) (kk : ℝ) (e_spat : ℝ → ℝ) (phi_0_rel dpn : ℝ) : ℝ × ℝ :=
  (kk * e_func e_spat z_rel u.2 phi_0_rel,
   dpn / Real.sqrt (1 - (u.1 ^ 2)⁻¹))

/-- The modified Runge-Kutta step `rk4(z, u, dz_s, ...)` of `transfer_matrices_c.pyx`,
generic in the increment function `g` (the source instantiates `g` with `du`).  The
`k_i` are increments (already scaled by the step): intermediate states are
`u + 0.5 * k_i` and `u + k_3`, evaluation positions are `z`, `z + 0.5 * dz_s` (twice)
and `z + dz_s`, and the result is `(k_1 + 2 k_2 + 2 k_3 + k_4)/6`. -/
def rk4 (g : ℝ → ℝ × ℝ → ℝ × ℝ) (z : ℝ) (u : ℝ × ℝ) (dz_s : ℝ) : ℝ × ℝ :=
  let k1 := g z u
  let k2 := g (z + 0.5 * dz_s) (u.1 + 0.5 * k1.1, u.2 + 0.5 * k1.2)
  let k3 := g (z + 0.5 * dz_s) (u.1 + 0.5 * k2.1, u.2 + 0.5 * k2.2)
  let k4 := g (z + dz_s) (u.1 + k3.1, u.2 + k3.2)
  ((k1.1 + 2 * k2.1 + 2 * k3.1 + k4.1) / 6,
   (k1.2 + 2 * k2.2 + 2 * k3.2 + k4.2) / 6)

/-- The classic Runge-Kutta step `rk4(u, du_dx, x, dx)` of the earlier variant of the
module: the `k_i` are derivatives, intermediate states are `u + (dx/2) * k_i` and
`u + dx * k_3`, and the result is `(k_1 + 2 k_2 + 2 k_3 + k_4) * dx / 6`. -/
def rk4_classic (u : ℝ × ℝ) (du_dx : ℝ → ℝ × ℝ → ℝ × ℝ) (x dx : ℝ) : ℝ × ℝ :=
  let k1 := du_dx x u
  let k2 := du_dx (x + 0.5 * dx) (u.1 + 0.5 * dx * k1.1, u.2 + 0.5 * dx * k1.2)
  let k3 := du_dx (x + 0.5 * dx) (u.1 + 0.5 * dx * k2.1, u.2 + 0.5 * dx * k2.2)
  let k4 := du_dx (x + dx) (u.1 + dx * k3.1, u.2 + dx * k3.2)
  (((k1.1 + 2 * k2.1 + 2 * k3.1 + k4.1) * dx) / 6,
   ((k1.2 + 2 * k2.2 + 2 * k3.2 + k4.2) * dx) / 6)

/-- The per-step drift matrix of `z_drift`:
`[[1, delta_s * gamma_in^-2], [0, 1]]`. -/
def driftMat (delta_s gamma_in : ℝ) : Matrix (Fin 2) (Fin 2) ℝ :=
  !![1, delta_s * (gamma_in ^ 2)⁻¹; 0, 1]

/-- `z_drift(delta_s, gamma_in, n_steps)` of `transfer_matrices_c.pyx`: the matrix array
holds `n_steps` copies of the constant drift matrix, and the state trajectory holds
`(gamma_in, (i+1) * delta_phi)` with
`delta_phi = OMEGA_0_BUNCH * delta_s / (beta_in * c)`, `beta_in = sqrt(1 - gamma_in^-2)`.
The third returned value of the source is always `None` and is omitted here. -/
def z_drift (delta_s gamma_in : ℝ) (n_steps : ℕ) :
    List (Matrix (Fin 2) (Fin 2) ℝ) × List (ℝ × ℝ) :=
  (List.replicate n_steps (driftMat delta_s gamma_in),
   (List.range n_steps).map fun (i : ℕ) =>
     (gamma_in,
      ((i : ℝ) + 1) *
        (OMEGA_0_BUNCH_cdef * delta_s / (Real.sqrt (1 - (gamma_in ^ 2)⁻¹) * c_cdef))))

/-- `beta_m = sqrt(1 - gamma_m^-2)` as computed inside `z_thin_lense`. -/
def beta_m_of (gamma_m : ℝ) : ℝ := Real.sqrt (1 - (gamma_m ^ 2)⁻¹)

/-- `k_speed1 = delta_gamma_m_max / (gamma_m * beta_m^2)` of `z_thin_lense`. -/
def k_speed1v (gamma_m delta_gamma_m_max : ℝ) : ℝ :=
  delta_gamma_m_max / (gamma_m * beta_m_of gamma_m ^ 2)

/-- `k_speed2 = k_speed1 * cos(phi_m + phi_0)` of `z_thin_lense`. -/
def k_speed2v (gamma_m phi_m delta_gamma_m_max phi_0 : ℝ) : ℝ :=
  k_speed1v gamma_m delta_gamma_m_max * Real.cos (phi_m + phi_0)

/-- `k_1 = k_speed1 * omega0_rf / (beta_m * c) * sin(phi_m + phi_0)` of `z_thin_lense`. -/
def k_1v (gamma_m phi_m delta_gamma_m_max phi_0 omega0_rf : ℝ) : ℝ :=
  k_speed1v gamma_m delta_gamma_m_max * omega0_rf / (beta_m_of gamma_m * c_cdef) *
    Real.sin (phi_m + phi_0)

/-- `k_2 = 1 - (2 - beta_m^2) * k_speed2` of `z_thin_lense`. -/
def k_2v (gamma_m phi_m delta_gamma_m_max phi_0 : ℝ) : ℝ :=
  1 - (2 - beta_m_of gamma_m ^ 2) * k_speed2v gamma_m phi_m delta_gamma_m_max phi_0

/-- `k_3 = (1 - k_speed2) / k_2` of `z_thin_lense`. -/
def k_3v (gamma_m phi_m delta_gamma_m_max phi_0 : ℝ) : ℝ :=
  (1 - k_speed2v gamma_m phi_m delta_gamma_m_max phi_0) /
    k_2v gamma_m phi_m delta_gamma_m_max phi_0

/-- `z_thin_lense(gamma_in, gamma_m, gamma_out, phi_m, half_dz_s, delta_gamma_m_max,
phi_0, omega0_rf)` of `transfer_matrices_c.pyx`:
`z_drift(half_dz_s, gamma_out)[0][0] @ ([[k_3, 0], [k_1, k_2]] @
z_drift(half_dz_s, gamma_in)[0][0])`. -/
def z_thin_lense (gamma_in gamma_m gamma_out phi_m half_dz_s delta_gamma_m_max
    phi_0 omega0_rf : ℝ) : Matrix (Fin 2) (Fin 2) ℝ :=
  driftMat half_dz_s gamma_out *
    (!![k_3v gamma_m phi_m delta_gamma_m_max phi_0, 0;
        k_1v gamma_m phi_m delta_gamma_m_max phi_0 omega0_rf,
        k_2v gamma_m phi_m delta_gamma_m_max phi_0] *
      driftMat half_dz_s gamma_in)

/-- The `dict_rf_field` argument of the field-map integrators, with the table selected
by `section_idx` abstracted into its sampling function `e_spat` (see `e_func`). -/
structure RfField where
  omega0_rf : ℝ
  k_e : ℝ
  phi_0_rel : ℝ
  e_spat : ℝ → ℝ

/-- `k_k = delta_gamma_norm * k_e` with
`delta_gamma_norm = q_adim * dz_s * inv_E_rest_MeV`. -/
def k_k (dz_s : ℝ) (rf : RfField) : ℝ :=
  q_adim_cdef * dz_s * inv_E_rest_MeV_cdef * rf.k_e

/-- `delta_phi_norm = omega0_rf * dz_s / c`. -/
def delta_phi_norm (dz_s : ℝ) (rf : RfField) : ℝ :=
  rf.omega0_rf * dz_s / c_cdef

/-- The `gamma_phi` array of `z_field_map_leapfrog`, as a function of the step index.
Index 0: phase 0, and the energy is rewound by half a kick
(`gamma_in - 0.5 * k_k * e_func(z=0, phi=0)`) exactly when `gamma_in == GAMMA_cdef`;
otherwise `gamma_in` unchanged.  Step `i → i+1` (at `z_rel = i * dz_s`):
`delta_gamma = k_k * e_func(z_rel, phi_i)`, `gamma_{i+1} = gamma_i + delta_gamma`,
`beta = sqrt(1 - gamma_{i+1}^-2)`, `phi_{i+1} = phi_i + delta_phi_norm / beta`. -/
def lf_gamma_phi (dz_s gamma_in : ℝ) (rf : RfField) : ℕ → ℝ × ℝ
  | 0 =>
      (if gamma_in = GAMMA_cdef then
         gamma_in - 0.5 * k_k dz_s rf * e_func rf.e_spat 0 0 rf.phi_0_rel
       else gamma_in, 0)
  | i + 1 =>
      let gp := lf_gamma_phi dz_s gamma_in rf i
      let delta_gamma := k_k dz_s rf * e_func rf.e_spat ((i : ℝ) * dz_s) gp.2 rf.phi_0_rel
      let g1 := gp.1 + delta_gamma
      (g1, gp.2 + delta_phi_norm dz_s rf / Real.sqrt (1 - (g1 ^ 2)⁻¹))

/-- The `gamma_middle` value handed by `z_field_map_leapfrog` to `z_thin_lense` at step
`i`: the source assigns `gamma_middle = gamma_phi[i, 0]`. -/
def lf_mid_gamma (dz_s gamma_in : ℝ) (rf : RfField) (i : ℕ) : ℝ :=
  (lf_gamma_phi dz_s gamma_in rf i).1

/-- The step-`i` transfer matrix `r_zz_array[i]` of `z_field_map_leapfrog`:
`z_thin_lense(gamma_phi[i,0], gamma_middle, gamma_phi[i+1,0], phi_middle, 0.5*dz_s,
k_k * interp(z_rel + 0.5*dz_s), phi_0_rel, omega0_rf)`, with
`phi_middle = phi_i + 0.5 * delta_phi` (and `delta_phi = phi_{i+1} - phi_i`). -/
def lf_r_zz (dz_s gamma_in : ℝ) (rf : RfField) (i : ℕ) : Matrix (Fin 2) (Fin 2) ℝ :=
  let gp := lf_gamma_phi dz_s gamma_in rf i
  let gp1 := lf_gamma_phi dz_s gamma_in rf (i + 1)
  z_thin_lense gp.1 (lf_mid_gamma dz_s gamma_in rf i) gp1.1
    (gp.2 + 0.5 * (gp1.2 - gp.2)) (0.5 * dz_s)
    (k_k dz_s rf * rf.e_spat ((i : ℝ) * dz_s + 0.5 * dz_s))
    rf.phi_0_rel rf.omega0_rf

/-- The increment computed by `z_field_map_rk4` at step `i`:
`rk4(z_rel, gamma_phi[i], dz_s, ...)` with `z_rel = i * dz_s` and `du` as the
increment function. -/
def rk4_delta (dz_s : ℝ) (rf : RfField) (i : ℕ) (gp : ℝ × ℝ) : ℝ × ℝ :=
  rk4 (fun z u => du z u (k_k dz_s rf) rf.e_spat rf.phi_0_rel (delta_phi_norm dz_s rf))
    ((i : ℝ) * dz_s) gp dz_s

/-- The `gamma_phi` array of `z_field_map_rk4`: index 0 is `(gamma_in, 0)`, and step
`i → i+1` adds the `rk4` increment. -/
def rk4_gamma_phi (dz_s gamma_in : ℝ) (rf : RfField) : ℕ → ℝ × ℝ
  | 0 => (gamma_in, 0)
  | i + 1 =>
      let gp := rk4_gamma_phi dz_s gamma_in rf i
      let d := rk4_delta dz_s rf i gp
      (gp.1 + d.1, gp.2 + d.2)

/-- The step-`i` transfer matrix `r_zz_array[i]` of `z_field_map_rk4`:
`z_thin_lense(gamma_phi[i,0], 0.5*(gamma_phi[i,0]+gamma_phi[i+1,0]), gamma_phi[i+1,0],
phi_i + 0.5*delta_phi, 0.5*dz_s, k_k * interp(z_rel + 0.5*dz_s), phi_0_rel,
omega0_rf)`. -/
def rk4_r_zz (dz_s gamma_in : ℝ) (rf : RfField) (i : ℕ) : Matrix (Fin 2) (Fin 2) ℝ :=
  let gp := rk4_gamma_phi dz_s gamma_in rf i
  let gp1 := rk4_gamma_phi dz_s gamma_in rf (i + 1)
  let d := rk4_delta dz_s rf i gp
  z_thin_lense gp.1 (0.5 * (gp.1 + gp1.1)) gp1.1
    (gp.2 + 0.5 * d.2) (0.5 * dz_s)
    (k_k dz_s rf * rf.e_spat ((i : ℝ) * dz_s + 0.5 * dz_s))
    rf.phi_0_rel rf.omega0_rf

/-- One entry of the global `l_d_ez` list built by `init_arrays`: the dict
`{"e_z": ..., "n_points": ..., "inv_dz": ...}`. -/
structure Ez_table where
  e_z : List ℝ
  n_points : ℕ
  inv_dz : ℝ

/-- The field-table selection `l_d_ez[section_idx]` performed by `z_field_map_rk4` and
`z_field_map_leapfrog`: a CPython list subscript (`pyGet`). -/
def section_lookup (l_d_ez : List Ez_table) (section_idx : ℤ) : Option Ez_table :=
  pyGet l_d_ez section_idx

/-- The field-table selection of `z_field_map` in the earlier variant: `section_idx == 0,
1, 2` select the three hard-coded tables (passed here as parameters, they are module
globals in the source) and anything else raises an `IOError` with message `bad lattice`. -/
def z_field_map_select {α : Type} (t0 t1 t2 : α) (section_idx : ℤ) : Except String α :=
  if section_idx = 0 then .ok t0
  else if section_idx = 1 then .ok t1
  else if section_idx = 2 then .ok t2
  else .error "bad lattice"

end

/-! Helper lemmas shared by several claims. -/

theorem det_driftMat (delta_s gamma_in : ℝ) : (driftMat delta_s gamma_in).det = 1 := by
  simp [driftMat, Matrix.det_fin_two_of]

theorem det_z_thin_lense (gamma_in gamma_m gamma_out phi_m half_dz_s delta_gamma_m_max
    phi_0 omega0_rf : ℝ) (hk2 : k_2v gamma_m phi_m delta_gamma_m_max phi_0 ≠ 0) :
    (z_thin_lense gamma_in gamma_m gamma_out phi_m half_dz_s delta_gamma_m_max
        phi_0 omega0_rf).det
      = 1 - k_speed2v gamma_m phi_m delta_gamma_m_max phi_0 := by
  rw [z_thin_lense, Matrix.det_mul, Matrix.det_mul, det_driftMat, det_driftMat,
    Matrix.det_fin_two_of, k_3v]
  rw [zero_mul, sub_zero, div_mul_cancel₀ _ hk2, one_mul, mul_one]

theorem sq_beta_m_of (gamma_m : ℝ) (h : (gamma_m ^ 2)⁻¹ ≤ 1) :
    beta_m_of gamma_m ^ 2 = 1 - (gamma_m ^ 2)⁻¹ := by
  rw [beta_m_of]
  exact Real.sq_sqrt (by linarith)

theorem z_thin_lense_zero_field (gamma gamma_m phi_m half_dz_s phi_0 omega0_rf : ℝ) :
    z_thin_lense gamma gamma_m gamma phi_m half_dz_s 0 phi_0 omega0_rf
      = driftMat (2 * half_dz_s) gamma := by
  have hs1 : k_speed1v gamma_m 0 = 0 := by rw [k_speed1v, zero_div]
  have hs2 : k_speed2v gamma_m phi_m 0 phi_0 = 0 := by rw [k_speed2v, hs1, zero_mul]
  have h1 : k_1v gamma_m phi_m 0 phi_0 omega0_rf = 0 := by
    rw [k_1v, hs1]; ring
  have h2 : k_2v gamma_m phi_m 0 phi_0 = 1 := by rw [k_2v, hs2]; ring
  have h3 : k_3v gamma_m phi_m 0 phi_0 = 1 := by rw [k_3v, hs2, h2]; norm_num
  rw [z_thin_lense, h1, h2, h3]
  simp only [driftMat]
  ext i j
  fin_cases i <;> fin_cases j <;>
    simp [Matrix.mul_fin_two] <;> ring

/-- Claim C2: the edge-case branch of the source is reached exactly at
`z = (n_points - 1)/inv_dz`; there it evaluates `e_z[n_points_e]`, one element past the
end of the `n_points`-element table, instead of returning `e_z[n_points - 1]`.  On the
concrete table `e_z = [1, 2]`, `inv_dz = 1`, `n_points = 2`, at `z = 1` the read is out
of bounds (`none`), not the last table value `2`. -/
theorem C2_last_index_reads_past_end :
    interp 1 [(1 : ℝ), 2] 1 2 = none ∧ interp 1 [(1 : ℝ), 2] 1 2 ≠ some 2 := by
  have hfloor : ⌊(1 : ℝ) * 1⌋ = (1 : ℤ) := by
    rw [mul_one]; exact Int.floor_one
  have h1 : ¬((1 : ℝ) < 0 ∨ (1 : ℝ) > (((2 : ℕ) : ℝ) - 1) / 1) := by
    push_neg; norm_num
  have h2 : ¬(⌊(1 : ℝ) * 1⌋ < ((2 : ℕ) : ℤ) - 1) := by
    rw [hfloor]; norm_num
  have heval : interp 1 [(1 : ℝ), 2] 1 2 = pyGet [(1 : ℝ), 2] ((2 : ℕ) : ℤ) := by
    rw [interp, if_neg h1, if_neg h2]
  rw [heval]
  constructor
  · rfl
  · intro h
    simp [pyGet] at h

/-- Claim C3 counterexample: at `z` exactly equal to the table length
`(n_points - 1)/inv_dz` the sampler does not return `0` (the guard uses a strict `>`),
it falls into the past-the-end branch instead.  Concrete instance: table `[0, 5]`,
`inv_dz = 2`, `n_points = 2`, table length `1/2`, `z = 1/2`. -/
theorem C3_not_zero_at_table_length :
    interp (1/2) [(0 : ℝ), 5] 2 2 ≠ some 0 := by
  have hfloor : ⌊(1/2 : ℝ) * 2⌋ = (1 : ℤ) := by
    norm_num
  have h1 : ¬((1/2 : ℝ) < 0 ∨ (1/2 : ℝ) > (((2 : ℕ) : ℝ) - 1) / 2) := by
    push_neg; norm_num
  have h2 : ¬(⌊(1/2 : ℝ) * 2⌋ < ((2 : ℕ) : ℤ) - 1) := by
    rw [hfloor]; norm_num
  have heval : interp (1/2) [(0 : ℝ), 5] 2 2 = pyGet [(0 : ℝ), 5] ((2 : ℕ) : ℤ) := by
    rw [interp, if_neg h1, if_neg h2]
  rw [heval]
  intro h
  simp [pyGet] at h

/-- Claim C3 (amended): the sampler returns exactly `0` for every position strictly
outside the closed interval `[0, (n_points - 1)/inv_dz]`, i.e. for `z < 0` or
`z > table_length`; the boundary point `z = table_length` is excluded (there the code
falls into the past-the-end branch instead). -/
theorem C3_zero_outside_support (z : ℝ) (e_z : List ℝ) (inv_dz_e : ℝ) (n_points_e : ℕ)
    (h : z < 0 ∨ z > ((n_points_e : ℝ) - 1) / inv_dz_e) :
    interp z e_z inv_dz_e n_points_e = some 0 := by
  rw [interp, if_pos h]

/-- Witness for `C3_zero_outside_support` at the concrete input `z = -1` on the table
`[1, 2]` with `inv_dz = 1`. -/
theorem C3_zero_outside_support_witness :
    interp (-1) [(1 : ℝ), 2] 1 2 = some 0 :=
  C3_zero_outside_support (-1) [(1 : ℝ), 2] 1 2 (Or.inl (by norm_num))

/-- Claim C10: for midpoint Lorentz factors with `0 < beta_m < 1` and nonzero
denominator `k_2`, the determinant of the `z_thin_lense` matrix equals exactly
`1 - k_speed2` (the half-drifts are unimodular and the kick matrix has determinant
`k_3 * k_2 = 1 - k_speed2`), and it is strictly greater than `1` whenever
`k_speed2 < 0`. -/
theorem C10_det_eq_one_sub_kspeed2 (gamma_in gamma_m gamma_out phi_m half_dz_s
    delta_gamma_m_max phi_0 omega0_rf : ℝ)
    (hb0 : 0 < beta_m_of gamma_m) (hb1 : beta_m_of gamma_m < 1)
    (hk2 : k_2v gamma_m phi_m delta_gamma_m_max phi_0 ≠ 0) :
    (z_thin_lense gamma_in gamma_m gamma_out phi_m half_dz_s delta_gamma_m_max
        phi_0 omega0_rf).det
      = 1 - k_speed2v gamma_m phi_m delta_gamma_m_max phi_0
    ∧ (k_speed2v gamma_m phi_m delta_gamma_m_max phi_0 < 0 →
        1 < (z_thin_lense gamma_in gamma_m gamma_out phi_m half_dz_s delta_gamma_m_max
          phi_0 omega0_rf).det) := by
  have hdet := det_z_thin_lense gamma_in gamma_m gamma_out phi_m half_dz_s
    delta_gamma_m_max phi_0 omega0_rf hk2
  exact ⟨hdet, fun hneg => by rw [hdet]; linarith⟩

/-- Witness for `C10_det_eq_one_sub_kspeed2` at `gamma_m = 2` (so
`beta_m = sqrt(3)/2 ∈ (0,1)`), `phi_m = phi_0 = 0`, `delta_gamma_m_max = 1`,
`half_dz_s = 1`, `omega0_rf = 1`, entrance/exit gamma `3`. -/
theorem C10_det_eq_one_sub_kspeed2_witness :
    (z_thin_lense 3 2 3 0 1 1 0 1).det = 1 - k_speed2v 2 0 1 0 := by
  have hb2 : beta_m_of 2 ^ 2 = 1 - ((2 : ℝ) ^ 2)⁻¹ := sq_beta_m_of 2 (by norm_num)
  have hb0 : 0 < beta_m_of 2 := by
    rw [beta_m_of]
    exact Real.sqrt_pos.mpr (by norm_num)
  have hb1 : beta_m_of 2 < 1 := by
    have h := Real.sqrt_lt_sqrt (by norm_num : (0:ℝ) ≤ 1 - ((2:ℝ)^2)⁻¹)
      (by norm_num : 1 - ((2:ℝ)^2)⁻¹ < 1)
    rw [Real.sqrt_one] at h
    exact h
  have hk2 : k_2v 2 0 1 0 ≠ 0 := by
    rw [k_2v, k_speed2v, k_speed1v, hb2]
    norm_num [Real.cos_zero]
  exact (C10_det_eq_one_sub_kspeed2 3 2 3 0 1 1 0 1 hb0 hb1 hk2).1

/-- Claim C1 counterexample: a physically valid input (midpoint gamma `1.0001 > 1`,
tiny field term `delta_gamma_m_max = 10^-5`, decelerating midpoint phase
`phi_m + phi_0 = pi`) on which the determinant of the `z_thin_lense` matrix exceeds
`1 + 1/1000`: the `k_3` correction does not bound the determinant by `1 + epsilon` when
the midpoint field term `k_speed2` is negative. -/
theorem C1_det_exceeds_bound :
    1 + 1/1000 <
      (z_thin_lense (10001/10000) (10001/10000) (10001/10000) Real.pi (1/2)
        (1/100000) 0 1).det := by
  have hb2 : beta_m_of (10001/10000 : ℝ) ^ 2 = 1 - (((10001 : ℝ)/10000) ^ 2)⁻¹ :=
    sq_beta_m_of (10001/10000) (by norm_num)
  have hcos : Real.cos (Real.pi + 0) = -1 := by rw [add_zero, Real.cos_pi]
  have hks2 : k_speed2v (10001/10000) Real.pi (1/100000) 0 = -(10001/200010 : ℝ) := by
    rw [k_speed2v, k_speed1v, hb2, hcos]
    norm_num
  have hk2 : k_2v (10001/10000) Real.pi (1/100000) 0 ≠ 0 := by
    rw [k_2v, hks2, hb2]
    norm_num
  rw [det_z_thin_lense (10001/10000) (10001/10000) (10001/10000) Real.pi (1/2)
    (1/100000) 0 1 hk2, hks2]
  norm_num

/-- Claim C1 (amended): the determinant of the `z_thin_lense` matrix equals
`1 - k_speed2` exactly, so it is bounded by `1` (hence by `1 + epsilon` for every
tolerance) exactly on the inputs whose midpoint field term `k_speed2` is nonnegative;
for `k_speed2 < 0` the determinant exceeds `1` (see the counterexample). -/
theorem C1_det_le_one_of_nonneg_kspeed2 (gamma_in gamma_m gamma_out phi_m half_dz_s
    delta_gamma_m_max phi_0 omega0_rf : ℝ)
    (hk2 : k_2v gamma_m phi_m delta_gamma_m_max phi_0 ≠ 0)
    (hks : 0 ≤ k_speed2v gamma_m phi_m delta_gamma_m_max phi_0) :
    (z_thin_lense gamma_in gamma_m gamma_out phi_m half_dz_s delta_gamma_m_max
        phi_0 omega0_rf).det ≤ 1 := by
  rw [det_z_thin_lense gamma_in gamma_m gamma_out phi_m half_dz_s delta_gamma_m_max
    phi_0 omega0_rf hk2]
  linarith

/-- Witness for `C1_det_le_one_of_nonneg_kspeed2` at `gamma_m = 2`,
`delta_gamma_m_max = 3/4`, `phi_m = phi_0 = 0`. -/
theorem C1_det_le_one_of_nonneg_kspeed2_witness :
    (z_thin_lense 5 2 5 0 1 (3/4) 0 2).det ≤ 1 := by
  have hb2 : beta_m_of 2 ^ 2 = 1 - ((2 : ℝ) ^ 2)⁻¹ := sq_beta_m_of 2 (by norm_num)
  have hk2 : k_2v 2 0 (3/4) 0 ≠ 0 := by
    rw [k_2v, k_speed2v, k_speed1v, hb2]
    norm_num [Real.cos_zero]
  have hks : 0 ≤ k_speed2v 2 0 (3/4) 0 := by
    rw [k_speed2v, k_speed1v, hb2]
    norm_num [Real.cos_zero]
  exact C1_det_le_one_of_nonneg_kspeed2 5 2 5 0 1 (3/4) 0 2 hk2 hks

/-- Claim C6 counterexample: for a drift of length `0.5` with `gamma = 1.1` and one
step, the upper-right entry of the returned matrix is `0.5 * (1/1.1^2)`, not the claimed
`0.5 * (1 - 1/1.1^2)`; the two differ by more than `0.3`, far beyond any floating
tolerance. -/
theorem C6_drift_entry_mismatch :
    (z_drift 0.5 1.1 1).1 = [driftMat 0.5 1.1]
      ∧ driftMat 0.5 1.1 0 1 = 0.5 * ((1.1 : ℝ) ^ 2)⁻¹
      ∧ 0.3 < 0.5 * ((1.1 : ℝ) ^ 2)⁻¹ - 0.5 * (1 - ((1.1 : ℝ) ^ 2)⁻¹) := by
  refine ⟨by simp [z_drift], ?_, by norm_num⟩
  simp [driftMat]

/-- Claim C6 (amended): for a drift of length `0.5`, entrance `gamma = 1.1`, one step,
`z_drift` returns the single matrix `[[1, 0.5 * (1/1.1^2)], [0, 1]]` and the phase
advance `OMEGA_0_BUNCH * 0.5 / (beta * c)` with `beta = sqrt(1 - 1/1.1^2)` (the claimed
phase advance is as stated; the claimed matrix entry `0.5 * (1 - 1/1.1^2)` is not what
the code computes). -/
theorem C6_drift_concrete_eval :
    z_drift 0.5 1.1 1 =
      ([!![1, 0.5 * ((1.1 : ℝ) ^ 2)⁻¹; 0, 1]],
       [((1.1 : ℝ),
         OMEGA_0_BUNCH_cdef * 0.5 / (Real.sqrt (1 - ((1.1 : ℝ) ^ 2)⁻¹) * c_cdef))]) := by
  rw [z_drift, Prod.mk.injEq]
  constructor
  · rw [List.replicate_one]
    rfl
  · have h0 : List.range 1 = [0] := rfl
    rw [h0, List.map_cons, List.map_nil, List.cons.injEq, Prod.mk.injEq]
    norm_num

theorem k_k_of_zero_ke (dz_s : ℝ) (rf : RfField) (hke : rf.k_e = 0) :
    k_k dz_s rf = 0 := by
  rw [k_k, hke, mul_zero]

theorem lf_gamma_const (dz_s gamma_in : ℝ) (rf : RfField) (hke : rf.k_e = 0) :
    ∀ i, (lf_gamma_phi dz_s gamma_in rf i).1 = gamma_in := by
  have hkk : k_k dz_s rf = 0 := k_k_of_zero_ke dz_s rf hke
  intro i
  induction i with
  | zero => simp [lf_gamma_phi, hkk]
  | succ n ih =>
      simp only [lf_gamma_phi, hkk, zero_mul, add_zero]
      exact ih

theorem rk4_delta_fst_zero (dz_s : ℝ) (rf : RfField) (hke : rf.k_e = 0) (i : ℕ)
    (gp : ℝ × ℝ) : (rk4_delta dz_s rf i gp).1 = 0 := by
  have hkk : k_k dz_s rf = 0 := k_k_of_zero_ke dz_s rf hke
  simp [rk4_delta, rk4, du, hkk]

theorem rk4_gamma_const (dz_s gamma_in : ℝ) (rf : RfField) (hke : rf.k_e = 0) :
    ∀ i, (rk4_gamma_phi dz_s gamma_in rf i).1 = gamma_in := by
  intro i
  induction i with
  | zero => rfl
  | succ n ih =>
      simp only [rk4_gamma_phi, rk4_delta_fst_zero dz_s rf hke, add_zero]
      exact ih

/-- Claim C4: in the source the leapfrog "rewind by half a kick" is guarded by the
energy-coincidence test `gamma_in == GAMMA_cdef`, not by "is this the first cavity of
the structure".  Concrete two-cavity structure: the first cavity has zero field, so its
exit gamma equals its entrance gamma `GAMMA_cdef`; the second cavity (with unit field,
`omega0_rf = 1`, `phi_0_rel = 0`, `dz_s = 1`) then *also* has its entrance energy
rewound (by `0.5 * k_k = 0.5 * 0.0010657889908537506`), contradicting the claim that no
cavity other than the very first one is ever rewound. -/
theorem C4_rewind_at_energy_coincidence :
    (lf_gamma_phi 1 GAMMA_cdef ⟨1, 0, 0, fun _ => 1⟩ 3).1 = GAMMA_cdef
      ∧ (lf_gamma_phi 1 GAMMA_cdef ⟨1, 1, 0, fun _ => 1⟩ 0).1
          = GAMMA_cdef - 0.5 * 0.0010657889908537506
      ∧ GAMMA_cdef - 0.5 * 0.0010657889908537506 ≠ GAMMA_cdef := by
  refine ⟨lf_gamma_const 1 GAMMA_cdef ⟨1, 0, 0, fun _ => 1⟩ rfl 3, ?_, ?_⟩
  · simp only [lf_gamma_phi, if_pos rfl]
    rw [k_k, e_func]
    norm_num [q_adim_cdef, inv_E_rest_MeV_cdef, Real.cos_zero]
  · rw [Ne, sub_eq_self]
    norm_num

/-- Claim C5: at each step the leapfrog driver hands `gamma_middle = gamma_phi[i, 0]`
(the *pre-kick* gamma) to `z_thin_lense`, not a value derived from the post-kick
`gamma_phi[i+1, 0]`.  Concrete instance (`dz_s = 1`, `gamma_in = 2` which differs from
`GAMMA_cdef` so no rewind applies, unit field, `phi_0_rel = 0`): at step 0 the midpoint
gamma handed to the builder is `2`, while the post-kick gamma is
`2 + 0.0010657889908537506`, and the two differ. -/
theorem C5_midpoint_gamma_is_pre_kick :
    lf_mid_gamma 1 2 ⟨1, 1, 0, fun _ => 1⟩ 0 = 2
      ∧ (lf_gamma_phi 1 2 ⟨1, 1, 0, fun _ => 1⟩ 1).1 = 2 + 0.0010657889908537506
      ∧ lf_mid_gamma 1 2 ⟨1, 1, 0, fun _ => 1⟩ 0
          ≠ (lf_gamma_phi 1 2 ⟨1, 1, 0, fun _ => 1⟩ 1).1 := by
  have hne : (2 : ℝ) ≠ GAMMA_cdef := by
    rw [GAMMA_cdef]; norm_num
  have h0 : (lf_gamma_phi 1 2 ⟨1, 1, 0, fun _ => 1⟩ 0).1 = 2 := by
    simp [lf_gamma_phi, if_neg hne]
  have h1 : (lf_gamma_phi 1 2 ⟨1, 1, 0, fun _ => 1⟩ 1).1
      = 2 + 0.0010657889908537506 := by
    simp only [lf_gamma_phi, if_neg hne]
    rw [k_k, e_func]
    norm_num [q_adim_cdef, inv_E_rest_MeV_cdef, Real.cos_zero]
  refine ⟨h0, h1, ?_⟩
  rw [lf_mid_gamma, h0, h1]
  norm_num

/-- Claim C7 counterexample: the Cython integrators select the field table by the
CPython list subscript `l_d_ez[section_idx]`; on a three-table list the negative index
`-1` does not raise, it silently selects the table of the *last* section. -/
theorem C7_negative_index_selects_table :
    section_lookup [⟨[0], 1, 1⟩, ⟨[1], 1, 1⟩, ⟨[2], 1, 1⟩] (-1)
      = some ⟨[2], 1, 1⟩ := by
  rfl

/-- Claim C7 (amended): a section index that is out of range on both ends
(`idx ≥ #tables` or `idx < -#tables`) makes the table lookup of the Cython integrators fail
immediately (`IndexError`, modelled as `none`), and `z_field_map` of the earlier variant
raises `IOError` with message `bad lattice` for every index outside 0, 1, 2; but a negative
index in `[-#tables, -1]` is silently wrapped by the Cython lookup (see the
counterexample). -/
theorem C7_out_of_range_is_error :
    (∀ (l : List Ez_table) (idx : ℤ),
        ((l.length : ℤ) ≤ idx ∨ idx < -(l.length : ℤ)) → section_lookup l idx = none)
      ∧ (∀ (α : Type) (t0 t1 t2 : α) (idx : ℤ), idx ≠ 0 → idx ≠ 1 → idx ≠ 2 →
          z_field_map_select t0 t1 t2 idx = Except.error "bad lattice") := by
  constructor
  · intro l idx h
    rw [section_lookup, pyGet]
    split_ifs with h1 h2
    · exfalso; omega
    · exfalso; omega
    · rfl
  · intro α t0 t1 t2 idx h0 h1 h2
    rw [z_field_map_select, if_neg h0, if_neg h1, if_neg h2]

/-- Witness for `C7_out_of_range_is_error`: index `5` on a one-table list fails, and
`z_field_map` rejects index `-2`. -/
theorem C7_out_of_range_is_error_witness :
    section_lookup [⟨[0], 1, 1⟩] 5 = none
      ∧ z_field_map_select (0 : ℕ) 1 2 (-2) = Except.error "bad lattice" :=
  ⟨C7_out_of_range_is_error.1 [⟨[0], 1, 1⟩] 5 (Or.inl (by norm_num)),
   C7_out_of_range_is_error.2 ℕ 0 1 2 (-2) (by norm_num) (by norm_num) (by norm_num)⟩

/-- Claim C8: the pre-scaled Runge-Kutta variant (each `k_i` an increment equal to the
step times the derivative, intermediate states `u + 0.5 * k_i`, combination
`(k_1 + 2 k_2 + 2 k_3 + k_4)/6`) computes, for every derivative function `f`, position
`z`, state `u` and step `dz`, exactly the same state increment as the classic variant
(`k_i` the derivative itself, intermediate states `u + (dz/2) * k_i`, combination
`(k_1 + 2 k_2 + 2 k_3 + k_4) * dz / 6`). -/
theorem C8_rk4_formulations_equiv (f : ℝ → ℝ × ℝ → ℝ × ℝ) (z : ℝ) (u : ℝ × ℝ)
    (dz : ℝ) :
    rk4 (fun zz uu => (dz * (f zz uu).1, dz * (f zz uu).2)) z u dz
      = rk4_classic u f z dz := by
  simp only [rk4, rk4_classic]
  have h2 : (u.1 + 0.5 * (dz * (f z u).1), u.2 + 0.5 * (dz * (f z u).2))
      = (u.1 + 0.5 * dz * (f z u).1, u.2 + 0.5 * dz * (f z u).2) := by
    rw [Prod.mk.injEq]
    constructor <;> ring
  rw [h2]
  set a := f (z + 0.5 * dz) (u.1 + 0.5 * dz * (f z u).1, u.2 + 0.5 * dz * (f z u).2)
    with ha
  have h3 : (u.1 + 0.5 * (dz * a.1), u.2 + 0.5 * (dz * a.2))
      = (u.1 + 0.5 * dz * a.1, u.2 + 0.5 * dz * a.2) := by
    rw [Prod.mk.injEq]
    constructor <;> ring
  rw [h3]
  set b := f (z + 0.5 * dz) (u.1 + 0.5 * dz * a.1, u.2 + 0.5 * dz * a.2) with hb
  set d := f (z + dz) (u.1 + dz * b.1, u.2 + dz * b.2) with hd
  rw [Prod.mk.injEq]
  constructor <;> ring

/-- Claim C9: with field amplitude `k_e = 0` (so the midpoint kick term is `0` and the
energy never changes), every step matrix built by the driver equals exactly the full
drift matrix over the step length — the product of the two half-drifts — for both the
Runge-Kutta and the leapfrog variants. -/
theorem C9_zero_field_reduces_to_drift (dz_s gamma_in : ℝ) (rf : RfField)
    (hke : rf.k_e = 0) (i : ℕ) :
    rk4_r_zz dz_s gamma_in rf i = driftMat dz_s gamma_in
      ∧ lf_r_zz dz_s gamma_in rf i = driftMat dz_s gamma_in := by
  have hkk : k_k dz_s rf = 0 := k_k_of_zero_ke dz_s rf hke
  have h2h : (2 : ℝ) * (0.5 * dz_s) = dz_s := by ring
  constructor
  · simp only [rk4_r_zz, rk4_gamma_const dz_s gamma_in rf hke, hkk, zero_mul]
    rw [z_thin_lense_zero_field, h2h]
  · simp only [lf_r_zz, lf_mid_gamma, lf_gamma_const dz_s gamma_in rf hke, hkk,
      zero_mul]
    rw [z_thin_lense_zero_field, h2h]

/-- Witness for `C9_zero_field_reduces_to_drift`: a concrete zero-amplitude cavity
(`omega0_rf = 1`, `k_e = 0`, `phi_0_rel = 0`, unit sampled field) with `dz_s = 1`,
`gamma_in = 2`, at step 0. -/
theorem C9_zero_field_reduces_to_drift_witness :
    rk4_r_zz 1 2 ⟨1, 0, 0, fun _ => 1⟩ 0 = driftMat 1 2
      ∧ lf_r_zz 1 2 ⟨1, 0, 0, fun _ => 1⟩ 0 = driftMat 1 2 :=
  C9_zero_field_reduces_to_drift 1 2 ⟨1, 0, 0, fun _ => 1⟩ rfl 0

end LightWin
